import Mathlib

/-!
A verification development for the blocking SPI layer of an embedded HAL:
the default bulk-transfer adapters built on a single-word full-duplex
primitive (`src/blocking/spi.rs`, modules `transfer`, `write`, `write_iter`)
and the chip-select-managed wrapper `SpiWithCs` (module `spi_with_cs`).

Modelling conventions:
* Mutable state (`&mut self`, `&mut [W]`) is passed explicitly: an operation
  on a device with state `S` takes the state and returns it next to the
  result, also on the error path (a failing Rust call may still have mutated
  `self`).
* `Result<T, E>` becomes `Except E T`.  The `nb`-style `block!(op)` busy-wait
  is modelled as the post-blocking outcome: one total call returning
  `Except E T` (the `WouldBlock` retries have no observable effect besides
  time, which is out of scope).
* A caller-owned mutable buffer `&mut [W]` becomes a `List W` that is
  returned in every outcome, so partial mutation before an error stays
  observable.
* Iterators (`IntoIterator<Item = W>`) are finite single-pass sequences,
  modelled as `List W`.
-/

/-- An observable bus event: one successful single-word send or read. -/
inductive Ev (W : Type) : Type
  | send (w : W)
  | read (w : W)
  deriving DecidableEq, Repr

/-- Modelled from the spec: the consumed single-word full-duplex primitive
(`crate::spi::FullDuplex`, declared outside this tree): one blocking send of
a single word and one blocking receive of a single word, both fallible, over
device state `S`. -/
structure FullDuplex (S W E : Type) where
  try_send : S → W → Except E Unit × S
  try_read : S → Except E W × S

namespace transfer

/-- Default `blocking::spi::Transfer` implementation for a `FullDuplex`
device (`src/blocking/spi.rs` lines 51-58): for each position in order,
send the word at that position, then overwrite that position with the next
received word; the first failure aborts and is propagated.  The buffer is
returned in every outcome (it is caller-owned and mutated in place). -/
def try_transfer {S W E : Type} (fd : FullDuplex S W E) :
    S → List W → Except E Unit × List W × S
  | s, [] => (Except.ok (), [], s)
  | s, w :: ws =>
    match fd.try_send s w with
    | (Except.error e, s1) => (Except.error e, w :: ws, s1)
    | (Except.ok _, s1) =>
      match fd.try_read s1 with
      | (Except.error e, s2) => (Except.error e, w :: ws, s2)
      | (Except.ok r, s2) =>
        match try_transfer fd s2 ws with
        | (res, ws1, s3) => (res, r :: ws1, s3)

end transfer

namespace write

/-- Default `blocking::spi::Write` implementation for a `FullDuplex` device
(`src/blocking/spi.rs` lines 74-81): for each word in order, send it, then
read (to drain the bus) and discard the received word; the first failure
aborts and is propagated. -/
def try_write {S W E : Type} (fd : FullDuplex S W E) :
    S → List W → Except E Unit × S
  | s, [] => (Except.ok (), s)
  | s, w :: ws =>
    match fd.try_send s w with
    | (Except.error e, s1) => (Except.error e, s1)
    | (Except.ok _, s1) =>
      match fd.try_read s1 with
      | (Except.error e, s2) => (Except.error e, s2)
      | (Except.ok _, s2) => try_write fd s2 ws

end write

namespace write_iter

/-- Default `blocking::spi::WriteIter` implementation for a `FullDuplex`
device (`src/blocking/spi.rs` lines 98-108): identical to `write.try_write`
but consuming an iterator, modelled as a finite single-pass list. -/
def try_write_iter {S W E : Type} (fd : FullDuplex S W E) :
    S → List W → Except E Unit × S
  | s, [] => (Except.ok (), s)
  | s, w :: ws =>
    match fd.try_send s w with
    | (Except.error e, s1) => (Except.error e, s1)
    | (Except.ok _, s1) =>
      match fd.try_read s1 with
      | (Except.error e, s2) => (Except.error e, s2)
      | (Except.ok _, s2) => try_write_iter fd s2 ws

end write_iter

/-- Modelled from the spec: the consumed fallible output-pin capability
(`set_low() -> outcome`, `set_high() -> outcome`), over pin state `P`. -/
structure OutputPin (P PE : Type) where
  try_set_low : P → Except PE Unit × P
  try_set_high : P → Except PE Unit × P

/-- The unified wrapper error (`src/blocking/spi.rs` lines 134-139): a
tagged variant carrying the original error of whichever domain failed. -/
inductive SpiWithCsErr (SpiError PinError : Type) : Type
  | Spi (e : SpiError)
  | Pin (e : PinError)
  deriving DecidableEq, Repr

/-- The chip-select-managed wrapper state (`src/blocking/spi.rs` lines
124-130): an SPI bus handle and a CS pin handle. -/
structure SpiWithCs (Spi Pin : Type) where
  spi : Spi
  cs : Pin
  deriving DecidableEq, Repr

namespace SpiWithCs

/-- `Transfer` for `SpiWithCs` (`src/blocking/spi.rs` lines 177-189):
assert CS (abort on pin failure), run the inner transfer capturing its
result, deassert CS (abort on pin failure), then return the captured
result.  The inner bus capability is passed as an explicit operation
`spi_transfer` on the bus state, standing for the `Spi: Transfer<u8>`
trait bound. -/
def try_transfer {Spi Pin SpiError PinError W : Type}
    (pin : OutputPin Pin PinError)
    (spi_transfer : Spi → List W → Except SpiError Unit × List W × Spi)
    (self : SpiWithCs Spi Pin) (data : List W) :
    Except (SpiWithCsErr SpiError PinError) Unit × List W × SpiWithCs Spi Pin :=
  match pin.try_set_low self.cs with
  | (Except.error e, cs1) => (Except.error (SpiWithCsErr.Pin e), data, ⟨self.spi, cs1⟩)
  | (Except.ok _, cs1) =>
    match spi_transfer self.spi data with
    | (spi_res, data1, spi1) =>
      match pin.try_set_high cs1 with
      | (Except.error e, cs2) => (Except.error (SpiWithCsErr.Pin e), data1, ⟨spi1, cs2⟩)
      | (Except.ok _, cs2) =>
        match spi_res with
        | Except.error e => (Except.error (SpiWithCsErr.Spi e), data1, ⟨spi1, cs2⟩)
        | Except.ok _ => (Except.ok (), data1, ⟨spi1, cs2⟩)

/-- `Write` for `SpiWithCs` (`src/blocking/spi.rs` lines 202-214): same
bracketing around the inner write operation. -/
def try_write {Spi Pin SpiError PinError W : Type}
    (pin : OutputPin Pin PinError)
    (spi_write : Spi → List W → Except SpiError Unit × Spi)
    (self : SpiWithCs Spi Pin) (data : List W) :
    Except (SpiWithCsErr SpiError PinError) Unit × SpiWithCs Spi Pin :=
  match pin.try_set_low self.cs with
  | (Except.error e, cs1) => (Except.error (SpiWithCsErr.Pin e), ⟨self.spi, cs1⟩)
  | (Except.ok _, cs1) =>
    match spi_write self.spi data with
    | (spi_res, spi1) =>
      match pin.try_set_high cs1 with
      | (Except.error e, cs2) => (Except.error (SpiWithCsErr.Pin e), ⟨spi1, cs2⟩)
      | (Except.ok _, cs2) =>
        match spi_res with
        | Except.error e => (Except.error (SpiWithCsErr.Spi e), ⟨spi1, cs2⟩)
        | Except.ok _ => (Except.ok (), ⟨spi1, cs2⟩)

/-- `WriteIter` for `SpiWithCs` (`src/blocking/spi.rs` lines 227-242): same
bracketing around the inner iterator write; the word sequence is a list. -/
def try_write_iter {Spi Pin SpiError PinError W : Type}
    (pin : OutputPin Pin PinError)
    (spi_write_iter : Spi → List W → Except SpiError Unit × Spi)
    (self : SpiWithCs Spi Pin) (words : List W) :
    Except (SpiWithCsErr SpiError PinError) Unit × SpiWithCs Spi Pin :=
  match pin.try_set_low self.cs with
  | (Except.error e, cs1) => (Except.error (SpiWithCsErr.Pin e), ⟨self.spi, cs1⟩)
  | (Except.ok _, cs1) =>
    match spi_write_iter self.spi words with
    | (spi_res, spi1) =>
      match pin.try_set_high cs1 with
      | (Except.error e, cs2) => (Except.error (SpiWithCsErr.Pin e), ⟨spi1, cs2⟩)
      | (Except.ok _, cs2) =>
        match spi_res with
        | Except.error e => (Except.error (SpiWithCsErr.Spi e), ⟨spi1, cs2⟩)
        | Except.ok _ => (Except.ok (), ⟨spi1, cs2⟩)

end SpiWithCs

/-! Concrete stub devices used to witness the wrapper theorems: each stub
keeps a log of the calls it received, so the theorems can be evaluated on
inputs whose call record is visible. -/

/-- A CS pin whose two operations always succeed and log themselves. -/
def logPin : OutputPin (List String) String where
  try_set_low := fun t => (Except.ok (), t ++ ["low"])
  try_set_high := fun t => (Except.ok (), t ++ ["high"])

/-- A CS pin that fails on `try_set_low` and succeeds on `try_set_high`. -/
def failLowPin : OutputPin (List String) String where
  try_set_low := fun t => (Except.error "low-failed", t)
  try_set_high := fun t => (Except.ok (), t ++ ["high"])

/-- A CS pin that asserts fine but fails on `try_set_high`. -/
def failHighPin : OutputPin (List String) String where
  try_set_low := fun t => (Except.ok (), t ++ ["low"])
  try_set_high := fun t => (Except.error "high-failed", t)

/-- An inner bus transfer that succeeds, bumps every word by one (so the
overwritten buffer is distinguishable from the input) and logs the call. -/
def logTransfer : List String → List Nat → Except String Unit × List Nat × List String :=
  fun s d => (Except.ok (), d.map (· + 1), s ++ ["transfer"])

/-- An inner bus transfer that fails after mutating the device state. -/
def failTransfer : List String → List Nat → Except String Unit × List Nat × List String :=
  fun s d => (Except.error "bus-failed", d, s ++ ["transfer-attempt"])

/-- An inner bus write that succeeds and logs the call. -/
def logWrite : List String → List Nat → Except String Unit × List String :=
  fun s _ => (Except.ok (), s ++ ["write"])

/-- An inner bus write that fails after mutating the device state. -/
def failWrite : List String → List Nat → Except String Unit × List String :=
  fun s _ => (Except.error "bus-failed", s ++ ["write-attempt"])

/-- C1: when `set_low`, the inner bus operation and `set_high` all succeed,
each `SpiWithCs` operation performs exactly `set_low`, then the inner bus
operation, then `set_high` — the final pin state is `set_high` applied to
the state `set_low` produced, and the final bus state is the inner
operation applied to the initial bus state — and it returns the inner bus
operation's result unchanged. -/
theorem cs_bracketing_success
    {Spi Pin SpiError PinError W : Type}
    (pin : OutputPin Pin PinError) (cs cs1 cs2 : Pin)
    (spiT : Spi → List W → Except SpiError Unit × List W × Spi)
    (spiW spiWI : Spi → List W → Except SpiError Unit × Spi)
    (spi : Spi) (data data1 dataw datai : List W) (spi1 spiw1 spii1 : Spi)
    (hlow : pin.try_set_low cs = (Except.ok (), cs1))
    (hhigh : pin.try_set_high cs1 = (Except.ok (), cs2))
    (htr : spiT spi data = (Except.ok (), data1, spi1))
    (hw : spiW spi dataw = (Except.ok (), spiw1))
    (hwi : spiWI spi datai = (Except.ok (), spii1)) :
    SpiWithCs.try_transfer pin spiT ⟨spi, cs⟩ data
      = (Except.ok (), data1, ⟨spi1, cs2⟩)
    ∧ SpiWithCs.try_write pin spiW ⟨spi, cs⟩ dataw
      = (Except.ok (), ⟨spiw1, cs2⟩)
    ∧ SpiWithCs.try_write_iter pin spiWI ⟨spi, cs⟩ datai
      = (Except.ok (), ⟨spii1, cs2⟩) := by
  refine ⟨?_, ?_, ?_⟩ <;>
    simp [SpiWithCs.try_transfer, SpiWithCs.try_write, SpiWithCs.try_write_iter,
      hlow, hhigh, htr, hw, hwi]

/-- Witness for C1 on logging stubs: the pin log ends up `[low, high]`, the
bus log shows the single inner call, and the bus result comes back
unchanged. -/
theorem cs_bracketing_success_witness :
    SpiWithCs.try_transfer logPin logTransfer ⟨[], []⟩ [1, 2]
      = (Except.ok (), [2, 3], ⟨["transfer"], ["low", "high"]⟩)
    ∧ SpiWithCs.try_write logPin logWrite ⟨[], []⟩ [5]
      = (Except.ok (), ⟨["write"], ["low", "high"]⟩)
    ∧ SpiWithCs.try_write_iter logPin logWrite ⟨[], []⟩ [6]
      = (Except.ok (), ⟨["write"], ["low", "high"]⟩) :=
  cs_bracketing_success logPin [] ["low"] ["low", "high"] logTransfer logWrite logWrite
    [] [1, 2] [2, 3] [5] [6] ["transfer"] ["write"] ["write"] rfl rfl rfl rfl rfl

/-- C2: when the initial `set_low` fails with pin error `e`, each wrapper
call returns `Pin e`, the bus state is untouched (the inner operation is
arbitrary, so an unchanged bus state means it was never invoked), and the
final pin state is exactly the one `set_low` left (`set_high` was never
attempted). -/
theorem cs_assert_failure_skips_bus
    {Spi Pin SpiError PinError W : Type}
    (pin : OutputPin Pin PinError) (cs cs1 : Pin) (e : PinError)
    (spiT : Spi → List W → Except SpiError Unit × List W × Spi)
    (spiW spiWI : Spi → List W → Except SpiError Unit × Spi)
    (spi : Spi) (data dataw datai : List W)
    (hlow : pin.try_set_low cs = (Except.error e, cs1)) :
    SpiWithCs.try_transfer pin spiT ⟨spi, cs⟩ data
      = (Except.error (SpiWithCsErr.Pin e), data, ⟨spi, cs1⟩)
    ∧ SpiWithCs.try_write pin spiW ⟨spi, cs⟩ dataw
      = (Except.error (SpiWithCsErr.Pin e), ⟨spi, cs1⟩)
    ∧ SpiWithCs.try_write_iter pin spiWI ⟨spi, cs⟩ datai
      = (Except.error (SpiWithCsErr.Pin e), ⟨spi, cs1⟩) := by
  refine ⟨?_, ?_, ?_⟩ <;>
    simp [SpiWithCs.try_transfer, SpiWithCs.try_write, SpiWithCs.try_write_iter, hlow]

/-- Witness for C2 on the failing-assert pin: the bus log stays empty and
the result is the pin error. -/
theorem cs_assert_failure_skips_bus_witness :
    SpiWithCs.try_transfer failLowPin logTransfer ⟨[], []⟩ [1, 2]
      = (Except.error (SpiWithCsErr.Pin "low-failed"), [1, 2], ⟨[], []⟩)
    ∧ SpiWithCs.try_write failLowPin logWrite ⟨[], []⟩ [5]
      = (Except.error (SpiWithCsErr.Pin "low-failed"), ⟨[], []⟩)
    ∧ SpiWithCs.try_write_iter failLowPin logWrite ⟨[], []⟩ [6]
      = (Except.error (SpiWithCsErr.Pin "low-failed"), ⟨[], []⟩) :=
  cs_assert_failure_skips_bus failLowPin [] [] "low-failed" logTransfer logWrite logWrite
    [] [1, 2] [5] [6] rfl

/-- C3: when `set_low` succeeds, the inner bus operation fails with bus
error `e`, and `set_high` succeeds, each wrapper call still performs
`set_high` (the final pin state is `set_high`'s output) and returns
`Spi e`, not masked by the successful deassert. -/
theorem cs_bus_failure_still_deasserts
    {Spi Pin SpiError PinError W : Type}
    (pin : OutputPin Pin PinError) (cs cs1 cs2 : Pin)
    (spiT : Spi → List W → Except SpiError Unit × List W × Spi)
    (spiW spiWI : Spi → List W → Except SpiError Unit × Spi)
    (spi : Spi) (data data1 dataw datai : List W) (spi1 spiw1 spii1 : Spi)
    (ebt ebw ebwi : SpiError)
    (hlow : pin.try_set_low cs = (Except.ok (), cs1))
    (hhigh : pin.try_set_high cs1 = (Except.ok (), cs2))
    (htr : spiT spi data = (Except.error ebt, data1, spi1))
    (hw : spiW spi dataw = (Except.error ebw, spiw1))
    (hwi : spiWI spi datai = (Except.error ebwi, spii1)) :
    SpiWithCs.try_transfer pin spiT ⟨spi, cs⟩ data
      = (Except.error (SpiWithCsErr.Spi ebt), data1, ⟨spi1, cs2⟩)
    ∧ SpiWithCs.try_write pin spiW ⟨spi, cs⟩ dataw
      = (Except.error (SpiWithCsErr.Spi ebw), ⟨spiw1, cs2⟩)
    ∧ SpiWithCs.try_write_iter pin spiWI ⟨spi, cs⟩ datai
      = (Except.error (SpiWithCsErr.Spi ebwi), ⟨spii1, cs2⟩) := by
  refine ⟨?_, ?_, ?_⟩ <;>
    simp [SpiWithCs.try_transfer, SpiWithCs.try_write, SpiWithCs.try_write_iter,
      hlow, hhigh, htr, hw, hwi]

/-- Witness for C3 on a failing bus: the pin log is `[low, high]` (deassert
still happened) and the wrapper result is the bus error. -/
theorem cs_bus_failure_still_deasserts_witness :
    SpiWithCs.try_transfer logPin failTransfer ⟨[], []⟩ [1, 2]
      = (Except.error (SpiWithCsErr.Spi "bus-failed"), [1, 2],
         ⟨["transfer-attempt"], ["low", "high"]⟩)
    ∧ SpiWithCs.try_write logPin failWrite ⟨[], []⟩ [5]
      = (Except.error (SpiWithCsErr.Spi "bus-failed"), ⟨["write-attempt"], ["low", "high"]⟩)
    ∧ SpiWithCs.try_write_iter logPin failWrite ⟨[], []⟩ [6]
      = (Except.error (SpiWithCsErr.Spi "bus-failed"), ⟨["write-attempt"], ["low", "high"]⟩) :=
  cs_bus_failure_still_deasserts logPin [] ["low"] ["low", "high"]
    failTransfer failWrite failWrite [] [1, 2] [1, 2] [5] [6]
    ["transfer-attempt"] ["write-attempt"] ["write-attempt"]
    "bus-failed" "bus-failed" "bus-failed" rfl rfl rfl rfl rfl

/-- C4: when `set_low` succeeds and the final `set_high` fails with pin
error `e2`, each wrapper call returns `Pin e2` whatever the inner bus
operation (quantified with no constraint on its outcome) returned: the
captured bus outcome is discarded, though the bus operation did run (the
final bus state is its output). -/
theorem cs_deassert_failure_overrides_bus
    {Spi Pin SpiError PinError W : Type}
    (pin : OutputPin Pin PinError) (cs cs1 cs2 : Pin) (e2 : PinError)
    (spiT : Spi → List W → Except SpiError Unit × List W × Spi)
    (spiW spiWI : Spi → List W → Except SpiError Unit × Spi)
    (spi : Spi) (data dataw datai : List W)
    (hlow : pin.try_set_low cs = (Except.ok (), cs1))
    (hhigh : pin.try_set_high cs1 = (Except.error e2, cs2)) :
    SpiWithCs.try_transfer pin spiT ⟨spi, cs⟩ data
      = (Except.error (SpiWithCsErr.Pin e2), (spiT spi data).2.1,
         ⟨(spiT spi data).2.2, cs2⟩)
    ∧ SpiWithCs.try_write pin spiW ⟨spi, cs⟩ dataw
      = (Except.error (SpiWithCsErr.Pin e2), ⟨(spiW spi dataw).2, cs2⟩)
    ∧ SpiWithCs.try_write_iter pin spiWI ⟨spi, cs⟩ datai
      = (Except.error (SpiWithCsErr.Pin e2), ⟨(spiWI spi datai).2, cs2⟩) := by
  refine ⟨?_, ?_, ?_⟩
  · rcases h : spiT spi data with ⟨r, d1, s1⟩
    simp [SpiWithCs.try_transfer, hlow, hhigh, h]
  · rcases h : spiW spi dataw with ⟨r, s1⟩
    simp [SpiWithCs.try_write, hlow, hhigh, h]
  · rcases h : spiWI spi datai with ⟨r, s1⟩
    simp [SpiWithCs.try_write_iter, hlow, hhigh, h]

/-- Witness for C4: with a succeeding bus and a failing deassert, the
result is the pin error even though the bus call happened and succeeded. -/
theorem cs_deassert_failure_overrides_bus_witness :
    SpiWithCs.try_transfer failHighPin logTransfer ⟨[], []⟩ [1, 2]
      = (Except.error (SpiWithCsErr.Pin "high-failed"), [2, 3], ⟨["transfer"], ["low"]⟩)
    ∧ SpiWithCs.try_write failHighPin logWrite ⟨[], []⟩ [5]
      = (Except.error (SpiWithCsErr.Pin "high-failed"), ⟨["write"], ["low"]⟩)
    ∧ SpiWithCs.try_write_iter failHighPin logWrite ⟨[], []⟩ [6]
      = (Except.error (SpiWithCsErr.Pin "high-failed"), ⟨["write"], ["low"]⟩) :=
  cs_deassert_failure_overrides_bus failHighPin [] ["low"] ["low"] "high-failed"
    logTransfer logWrite logWrite [] [1, 2] [5] [6] rfl rfl

/-- C10: on `SpiWithCs.try_transfer`, when `set_low` succeeds, the inner
transfer succeeds having overwritten the buffer to `data1`, and the final
`set_high` fails, the call reports the pin error while the returned buffer
is the fully overwritten `data1` — the mutation is not rolled back. -/
theorem cs_deassert_failure_keeps_buffer
    {Spi Pin SpiError PinError W : Type}
    (pin : OutputPin Pin PinError) (cs cs1 cs2 : Pin) (e2 : PinError)
    (spiT : Spi → List W → Except SpiError Unit × List W × Spi)
    (spi spi1 : Spi) (data data1 : List W)
    (hlow : pin.try_set_low cs = (Except.ok (), cs1))
    (htr : spiT spi data = (Except.ok (), data1, spi1))
    (hhigh : pin.try_set_high cs1 = (Except.error e2, cs2)) :
    SpiWithCs.try_transfer pin spiT ⟨spi, cs⟩ data
      = (Except.error (SpiWithCsErr.Pin e2), data1, ⟨spi1, cs2⟩) := by
  simp [SpiWithCs.try_transfer, hlow, hhigh, htr]

/-- Witness for C10: the buffer comes back overwritten (`[2, 3]`, not the
original `[1, 2]`) next to the pin error. -/
theorem cs_deassert_failure_keeps_buffer_witness :
    SpiWithCs.try_transfer failHighPin logTransfer ⟨[], []⟩ [1, 2]
      = (Except.error (SpiWithCsErr.Pin "high-failed"), [2, 3], ⟨["transfer"], ["low"]⟩) :=
  cs_deassert_failure_keeps_buffer failHighPin [] ["low"] ["low"] "high-failed"
    logTransfer [] ["transfer"] [1, 2] [2, 3] rfl rfl rfl

/-- The alternating event trace of a bulk exchange: the i-th sent word next
to the i-th received word, in increasing position order. -/
def exchangeTrace {W : Type} : List W → List W → List (Ev W)
  | w :: ws, r :: rs => Ev.send w :: Ev.read r :: exchangeTrace ws rs
  | _, _ => []

/-- Number of send events in a trace. -/
def countSends {W : Type} : List (Ev W) → Nat
  | [] => 0
  | Ev.send _ :: t => countSends t + 1
  | Ev.read _ :: t => countSends t

/-- Number of read events in a trace. -/
def countReads {W : Type} : List (Ev W) → Nat
  | [] => 0
  | Ev.send _ :: t => countReads t
  | Ev.read _ :: t => countReads t + 1

/-- A full-duplex stub that echoes each sent word back on the next read and
logs every successful operation.  Its state is the log next to the word
currently in flight; a read with nothing in flight is a protocol violation
and fails. -/
def echo : FullDuplex (List (Ev Nat) × Option Nat) Nat Unit where
  try_send := fun st w => (Except.ok (), (st.1 ++ [Ev.send w], some w))
  try_read := fun st =>
    match st.2 with
    | some w => (Except.ok w, (st.1 ++ [Ev.read w], none))
    | none => (Except.error (), st)

theorem echo_send (st : List (Ev Nat) × Option Nat) (w : Nat) :
    echo.try_send st w = (Except.ok (), (st.1 ++ [Ev.send w], some w)) := rfl

theorem echo_read_some (t : List (Ev Nat)) (w : Nat) :
    echo.try_read (t, some w) = (Except.ok w, (t ++ [Ev.read w], none)) := rfl

theorem echo_transfer_run (b : List Nat) :
    ∀ t : List (Ev Nat), transfer.try_transfer echo (t, none) b
      = (Except.ok (), b, (t ++ exchangeTrace b b, none)) := by
  induction b with
  | nil => intro t; simp [transfer.try_transfer, exchangeTrace]
  | cons w ws ih =>
    intro t
    simp [transfer.try_transfer, echo_send, echo_read_some, exchangeTrace, ih,
      List.append_assoc]

theorem countSends_exchange_self {W : Type} (b : List W) :
    countSends (exchangeTrace b b) = b.length := by
  induction b with
  | nil => rfl
  | cons w ws ih => simp [exchangeTrace, countSends, ih]

theorem countReads_exchange_self {W : Type} (b : List W) :
    countReads (exchangeTrace b b) = b.length := by
  induction b with
  | nil => rfl
  | cons w ws ih => simp [exchangeTrace, countReads, ih]

/-- C5: against the echoing full-duplex stub, the default `try_transfer`
returns the original buffer unchanged, never fails, and the stub's log is
exactly the strictly alternating send-then-read trace with one send and
one read per word. -/
theorem transfer_roundtrip_echo (b : List Nat) :
    transfer.try_transfer echo ([], none) b
      = (Except.ok (), b, (exchangeTrace b b, none))
    ∧ countSends (exchangeTrace b b) = b.length
    ∧ countReads (exchangeTrace b b) = b.length := by
  refine ⟨?_, countSends_exchange_self b, countReads_exchange_self b⟩
  simpa using echo_transfer_run b []

/-- Instrument an arbitrary full-duplex device with a log of its successful
sends and reads, leaving the underlying behaviour unchanged.  This makes
the order and content of the single-word operations that the default
adapters perform observable for any device. -/
def FullDuplex.traced {S W E : Type} (fd : FullDuplex S W E) :
    FullDuplex (S × List (Ev W)) W E where
  try_send := fun st w =>
    match fd.try_send st.1 w with
    | (Except.ok _, s1) => (Except.ok (), (s1, st.2 ++ [Ev.send w]))
    | (Except.error e, s1) => (Except.error e, (s1, st.2))
  try_read := fun st =>
    match fd.try_read st.1 with
    | (Except.ok w, s1) => (Except.ok w, (s1, st.2 ++ [Ev.read w]))
    | (Except.error e, s1) => (Except.error e, (s1, st.2))

theorem transfer_preserves_length {S W E : Type} (fd : FullDuplex S W E) :
    ∀ (s : S) (b : List W), (transfer.try_transfer fd s b).2.1.length = b.length := by
  intro s b
  induction b generalizing s with
  | nil => simp [transfer.try_transfer]
  | cons w ws ih =>
    simp only [transfer.try_transfer]
    rcases h1 : fd.try_send s w with ⟨r1, s1⟩
    cases r1 with
    | error e => simp [h1]
    | ok u =>
      rcases h2 : fd.try_read s1 with ⟨r2, s2⟩
      cases r2 with
      | error e => simp [h1, h2]
      | ok r => simp [h1, h2, ih s2]

theorem traced_transfer_ok_trace {S W E : Type} (fd : FullDuplex S W E) :
    ∀ (s : S) (t : List (Ev W)) (b : List W),
      (transfer.try_transfer fd.traced (s, t) b).1 = Except.ok () →
      (transfer.try_transfer fd.traced (s, t) b).2.2.2
        = t ++ exchangeTrace b (transfer.try_transfer fd.traced (s, t) b).2.1 := by
  intro s t b
  induction b generalizing s t with
  | nil => intro _; simp [transfer.try_transfer, exchangeTrace]
  | cons w ws ih =>
    intro hok
    rcases h1 : fd.try_send s w with ⟨r1, s1⟩
    cases r1 with
    | error e =>
      rw [show transfer.try_transfer fd.traced (s, t) (w :: ws)
            = (Except.error e, w :: ws, (s1, t)) by
          simp [transfer.try_transfer, FullDuplex.traced, h1]] at hok ⊢
      exact absurd hok (by simp)
    | ok u =>
      rcases h2 : fd.try_read s1 with ⟨r2, s2⟩
      cases r2 with
      | error e =>
        rw [show transfer.try_transfer fd.traced (s, t) (w :: ws)
              = (Except.error e, w :: ws, (s2, t ++ [Ev.send w])) by
            simp [transfer.try_transfer, FullDuplex.traced, h1, h2]] at hok ⊢
        exact absurd hok (by simp)
      | ok r =>
        have hstep : transfer.try_transfer fd.traced (s, t) (w :: ws)
            = ((transfer.try_transfer fd.traced (s2, t ++ [Ev.send w, Ev.read r]) ws).1,
               r :: (transfer.try_transfer fd.traced (s2, t ++ [Ev.send w, Ev.read r]) ws).2.1,
               (transfer.try_transfer fd.traced (s2, t ++ [Ev.send w, Ev.read r]) ws).2.2) := by
          simp [transfer.try_transfer, FullDuplex.traced, h1, h2]
        rw [hstep] at hok ⊢
        have := ih s2 (t ++ [Ev.send w, Ev.read r]) hok
        simp only [this, exchangeTrace]
        simp

/-- C7: for any device, the default `try_transfer` on its traced version,
when it succeeds, has performed exactly the strictly alternating trace
`send b[0], read b'[0], send b[1], read b'[1], ...` in increasing position
order — the i-th send carries the word originally at position i, position i
of the returned buffer holds exactly the i-th received word — and the
returned buffer has the same length as the input buffer. -/
theorem transfer_positional_exchange {S W E : Type} (fd : FullDuplex S W E)
    (s : S) (t : List (Ev W)) (b : List W)
    (hok : (transfer.try_transfer fd.traced (s, t) b).1 = Except.ok ()) :
    (transfer.try_transfer fd.traced (s, t) b).2.1.length = b.length
    ∧ (transfer.try_transfer fd.traced (s, t) b).2.2.2
        = t ++ exchangeTrace b (transfer.try_transfer fd.traced (s, t) b).2.1 :=
  ⟨transfer_preserves_length fd.traced (s, t) b,
   traced_transfer_ok_trace fd s t b hok⟩

/-- The trace-free core of the echo stub, used to instantiate the generic
traced theorems on a concrete device. -/
def echoCore : FullDuplex (Option Nat) Nat Unit where
  try_send := fun _ w => (Except.ok (), some w)
  try_read := fun p =>
    match p with
    | some w => (Except.ok w, none)
    | none => (Except.error (), none)

/-- Witness for C7 at the traced echo core on buffer `[3, 4]`. -/
theorem transfer_positional_exchange_witness :
    (transfer.try_transfer echoCore.traced (none, []) [3, 4]).1 = Except.ok ()
    ∧ ((transfer.try_transfer echoCore.traced (none, []) [3, 4]).2.1.length
          = ([3, 4] : List Nat).length
       ∧ (transfer.try_transfer echoCore.traced (none, []) [3, 4]).2.2.2
          = [] ++ exchangeTrace [3, 4]
              (transfer.try_transfer echoCore.traced (none, []) [3, 4]).2.1) :=
  ⟨rfl, transfer_positional_exchange echoCore none [] [3, 4] rfl⟩

theorem write_eq_transfer {S W E : Type} (fd : FullDuplex S W E) :
    ∀ (s : S) (b : List W),
      write.try_write fd s b
        = ((transfer.try_transfer fd s b).1, (transfer.try_transfer fd s b).2.2) := by
  intro s b
  induction b generalizing s with
  | nil => simp [write.try_write, transfer.try_transfer]
  | cons w ws ih =>
    simp only [write.try_write, transfer.try_transfer]
    rcases h1 : fd.try_send s w with ⟨r1, s1⟩
    cases r1 with
    | error e => simp [h1]
    | ok u =>
      rcases h2 : fd.try_read s1 with ⟨r2, s2⟩
      cases r2 with
      | error e => simp [h1, h2]
      | ok r => simp [h1, h2, ih s2]

theorem write_iter_eq_write {S W E : Type} (fd : FullDuplex S W E) :
    ∀ (s : S) (b : List W),
      write_iter.try_write_iter fd s b = write.try_write fd s b := by
  intro s b
  induction b generalizing s with
  | nil => rfl
  | cons w ws ih =>
    simp only [write_iter.try_write_iter, write.try_write]
    rcases h1 : fd.try_send s w with ⟨r1, s1⟩
    cases r1 with
    | error e => simp [h1]
    | ok u =>
      rcases h2 : fd.try_read s1 with ⟨r2, s2⟩
      cases r2 with
      | error e => simp [h1, h2]
      | ok r => simp [h1, h2, ih s2]

/-- C8: for any device, the default `try_write` on its traced version, when
it succeeds, has performed exactly one send per input word in input order,
each immediately drained by one read whose value is discarded (the trace is
the alternating send/read interleaving with some received sequence of the
same length, and the success value is the bare unit); and `try_write_iter`
consumes its word sequence exactly once, in order, performing literally the
same operations as `try_write`. -/
theorem write_drains_each_send {S W E : Type} (fd : FullDuplex S W E)
    (s : S) (t : List (Ev W)) (b : List W)
    (hok : (write.try_write fd.traced (s, t) b).1 = Except.ok ()) :
    (∃ rs : List W, rs.length = b.length
        ∧ (write.try_write fd.traced (s, t) b).2.2 = t ++ exchangeTrace b rs)
    ∧ write_iter.try_write_iter fd.traced (s, t) b = write.try_write fd.traced (s, t) b := by
  refine ⟨?_, write_iter_eq_write fd.traced (s, t) b⟩
  rw [write_eq_transfer fd.traced (s, t) b] at hok ⊢
  refine ⟨(transfer.try_transfer fd.traced (s, t) b).2.1,
    transfer_preserves_length fd.traced (s, t) b, ?_⟩
  simpa using traced_transfer_ok_trace fd s t b hok

/-- Witness for C8 at the traced echo core on buffer `[3, 4]`. -/
theorem write_drains_each_send_witness :
    (write.try_write echoCore.traced (none, []) [3, 4]).1 = Except.ok ()
    ∧ ((∃ rs : List Nat, rs.length = ([3, 4] : List Nat).length
          ∧ (write.try_write echoCore.traced (none, []) [3, 4]).2.2
              = [] ++ exchangeTrace [3, 4] rs)
       ∧ write_iter.try_write_iter echoCore.traced (none, []) [3, 4]
          = write.try_write echoCore.traced (none, []) [3, 4]) :=
  ⟨rfl, write_drains_each_send echoCore none [] [3, 4] rfl⟩

/-- State of the failure-injection stub: an operation counter, a log of the
operations performed, and the word currently in flight. -/
structure FuseSt where
  count : Nat
  trace : List (Ev Nat)
  pending : Option Nat
  deriving DecidableEq, Repr

/-- A full-duplex stub that numbers its operations (send of word `i` is
operation `2i`, the matching read is operation `2i+1`), answers each read
with the last sent word plus 100 (so received words are distinguishable
from the originals), and fails exactly at operation number `n`, reporting
its operation counter as the error value. -/
def fuseBump (n : Nat) : FullDuplex FuseSt Nat Nat where
  try_send := fun st w =>
    if st.count = n then (Except.error st.count, st)
    else (Except.ok (), ⟨st.count + 1, st.trace ++ [Ev.send w], some w⟩)
  try_read := fun st =>
    if st.count = n then (Except.error st.count, st)
    else
      match st.pending with
      | some w =>
          (Except.ok (w + 100), ⟨st.count + 1, st.trace ++ [Ev.read (w + 100)], none⟩)
      | none => (Except.error st.count, st)

theorem fuse_send_fail (ws : List Nat) :
    ∀ (j c : Nat) (t : List (Ev Nat)), j < ws.length →
      transfer.try_transfer (fuseBump (c + 2 * j)) ⟨c, t, none⟩ ws
        = (Except.error (c + 2 * j),
           (ws.take j).map (· + 100) ++ ws.drop j,
           ⟨c + 2 * j, t ++ exchangeTrace (ws.take j) ((ws.take j).map (· + 100)),
            none⟩) := by
  induction ws with
  | nil => intro j c t hj; exact absurd hj (by simp)
  | cons w ws ih =>
    intro j c t hj
    cases j with
    | zero => simp [transfer.try_transfer, fuseBump, exchangeTrace]
    | succ j =>
      rw [show c + 2 * (j + 1) = c + 2 + 2 * j by ring]
      have hc1 : ¬(c = c + 2 + 2 * j) := by omega
      have hc2 : ¬(c + 1 = c + 2 + 2 * j) := by omega
      have hsend : (fuseBump (c + 2 + 2 * j)).try_send ⟨c, t, none⟩ w
          = (Except.ok (), ⟨c + 1, t ++ [Ev.send w], some w⟩) := by
        simp [fuseBump, hc1]
      have hread : (fuseBump (c + 2 + 2 * j)).try_read ⟨c + 1, t ++ [Ev.send w], some w⟩
          = (Except.ok (w + 100),
             ⟨c + 2, (t ++ [Ev.send w]) ++ [Ev.read (w + 100)], none⟩) := by
        simp [fuseBump, hc2]
      have hrec := ih j (c + 2) ((t ++ [Ev.send w]) ++ [Ev.read (w + 100)])
        (Nat.lt_of_succ_lt_succ hj)
      simp only [transfer.try_transfer]
      simp at hrec
      simp [hsend, hread, hrec, exchangeTrace, List.append_assoc]

theorem fuse_read_fail (ws : List Nat) :
    ∀ (j c : Nat) (t : List (Ev Nat)), j < ws.length →
      transfer.try_transfer (fuseBump (c + 2 * j + 1)) ⟨c, t, none⟩ ws
        = (Except.error (c + 2 * j + 1),
           (ws.take j).map (· + 100) ++ ws.drop j,
           ⟨c + 2 * j + 1,
            t ++ exchangeTrace (ws.take j) ((ws.take j).map (· + 100))
              ++ [Ev.send (ws.getD j 0)],
            some (ws.getD j 0)⟩) := by
  induction ws with
  | nil => intro j c t hj; exact absurd hj (by simp)
  | cons w ws ih =>
    intro j c t hj
    cases j with
    | zero =>
      have hc1 : ¬(c = c + 2 * 0 + 1) := by omega
      have hsend : (fuseBump (c + 2 * 0 + 1)).try_send ⟨c, t, none⟩ w
          = (Except.ok (), ⟨c + 1, t ++ [Ev.send w], some w⟩) := by
        simp [fuseBump, hc1]
      simp only [transfer.try_transfer]
      simp [hsend, fuseBump, exchangeTrace]
    | succ j =>
      rw [show c + 2 * (j + 1) + 1 = c + 2 + 2 * j + 1 by ring]
      have hc1 : ¬(c = c + 2 + 2 * j + 1) := by omega
      have hc2 : ¬(c + 1 = c + 2 + 2 * j + 1) := by omega
      have hsend : (fuseBump (c + 2 + 2 * j + 1)).try_send ⟨c, t, none⟩ w
          = (Except.ok (), ⟨c + 1, t ++ [Ev.send w], some w⟩) := by
        simp [fuseBump, hc1]
      have hread : (fuseBump (c + 2 + 2 * j + 1)).try_read ⟨c + 1, t ++ [Ev.send w], some w⟩
          = (Except.ok (w + 100),
             ⟨c + 2, (t ++ [Ev.send w]) ++ [Ev.read (w + 100)], none⟩) := by
        simp [fuseBump, hc2]
      have hrec := ih j (c + 2) ((t ++ [Ev.send w]) ++ [Ev.read (w + 100)])
        (Nat.lt_of_succ_lt_succ hj)
      simp only [transfer.try_transfer]
      simp at hrec
      simp [hsend, hread, hrec, exchangeTrace, List.append_assoc]

/-- C6: against the failure-injection stub, if send (operation `2k`) or
read (operation `2k+1`) fails at word index `k`, the default `try_transfer`
and `try_write` return exactly the stub's error value; the log and counter
show that no operation beyond the failing one occurred; and the positions
before `k` keep their already-exchanged (bumped) words while the positions
from the failure on keep the original words — no rollback. -/
theorem first_failure_aborts (b : List Nat) (k : Nat) (hk : k < b.length) :
    transfer.try_transfer (fuseBump (2 * k)) ⟨0, [], none⟩ b
      = (Except.error (2 * k), (b.take k).map (· + 100) ++ b.drop k,
         ⟨2 * k, exchangeTrace (b.take k) ((b.take k).map (· + 100)), none⟩)
    ∧ transfer.try_transfer (fuseBump (2 * k + 1)) ⟨0, [], none⟩ b
      = (Except.error (2 * k + 1), (b.take k).map (· + 100) ++ b.drop k,
         ⟨2 * k + 1,
          exchangeTrace (b.take k) ((b.take k).map (· + 100)) ++ [Ev.send (b.getD k 0)],
          some (b.getD k 0)⟩)
    ∧ write.try_write (fuseBump (2 * k)) ⟨0, [], none⟩ b
      = (Except.error (2 * k),
         ⟨2 * k, exchangeTrace (b.take k) ((b.take k).map (· + 100)), none⟩)
    ∧ write.try_write (fuseBump (2 * k + 1)) ⟨0, [], none⟩ b
      = (Except.error (2 * k + 1),
         ⟨2 * k + 1,
          exchangeTrace (b.take k) ((b.take k).map (· + 100)) ++ [Ev.send (b.getD k 0)],
          some (b.getD k 0)⟩) := by
  have h1 := fuse_send_fail b k 0 [] hk
  have h2 := fuse_read_fail b k 0 [] hk
  simp only [Nat.zero_add, List.nil_append] at h1 h2
  refine ⟨h1, h2, ?_, ?_⟩
  · rw [write_eq_transfer (fuseBump (2 * k)) ⟨0, [], none⟩ b, h1]
  · rw [write_eq_transfer (fuseBump (2 * k + 1)) ⟨0, [], none⟩ b, h2]

/-- Witness for C6 at `b = [3, 4, 5]`, failing word index `k = 1`: the send
failure is operation 2, the read failure operation 3; word 3 stays
exchanged as 103, words 4 and 5 stay original. -/
theorem first_failure_aborts_witness :
    1 < ([3, 4, 5] : List Nat).length
    ∧ (transfer.try_transfer (fuseBump (2 * 1)) ⟨0, [], none⟩ [3, 4, 5]
        = (Except.error (2 * 1),
           (([3, 4, 5] : List Nat).take 1).map (· + 100) ++ ([3, 4, 5] : List Nat).drop 1,
           ⟨2 * 1,
            exchangeTrace (([3, 4, 5] : List Nat).take 1)
              ((([3, 4, 5] : List Nat).take 1).map (· + 100)), none⟩)
      ∧ transfer.try_transfer (fuseBump (2 * 1 + 1)) ⟨0, [], none⟩ [3, 4, 5]
        = (Except.error (2 * 1 + 1),
           (([3, 4, 5] : List Nat).take 1).map (· + 100) ++ ([3, 4, 5] : List Nat).drop 1,
           ⟨2 * 1 + 1,
            exchangeTrace (([3, 4, 5] : List Nat).take 1)
                ((([3, 4, 5] : List Nat).take 1).map (· + 100))
              ++ [Ev.send (([3, 4, 5] : List Nat).getD 1 0)],
            some (([3, 4, 5] : List Nat).getD 1 0)⟩)
      ∧ write.try_write (fuseBump (2 * 1)) ⟨0, [], none⟩ [3, 4, 5]
        = (Except.error (2 * 1),
           ⟨2 * 1,
            exchangeTrace (([3, 4, 5] : List Nat).take 1)
              ((([3, 4, 5] : List Nat).take 1).map (· + 100)), none⟩)
      ∧ write.try_write (fuseBump (2 * 1 + 1)) ⟨0, [], none⟩ [3, 4, 5]
        = (Except.error (2 * 1 + 1),
           ⟨2 * 1 + 1,
            exchangeTrace (([3, 4, 5] : List Nat).take 1)
                ((([3, 4, 5] : List Nat).take 1).map (· + 100))
              ++ [Ev.send (([3, 4, 5] : List Nat).getD 1 0)],
            some (([3, 4, 5] : List Nat).getD 1 0)⟩)) :=
  ⟨by decide, first_failure_aborts [3, 4, 5] 1 (by decide)⟩

/-- C9: for the empty buffer (or empty word sequence), the default
`try_transfer`, `try_write` and `try_write_iter` all return success
immediately with the device state untouched: since the device is arbitrary,
an unchanged state means zero sends and zero reads were performed. -/
theorem empty_buffer_no_ops {S W E : Type} (fd : FullDuplex S W E) (s : S) :
    transfer.try_transfer fd s [] = (Except.ok (), [], s)
    ∧ write.try_write fd s [] = (Except.ok (), s)
    ∧ write_iter.try_write_iter fd s [] = (Except.ok (), s) :=
  ⟨rfl, rfl, rfl⟩
